import Mathlib

/-!
Verification of the admission-decision engine of a multi-channel Telegram
approval bot (`bot.py`): the membership ledger, the suspicion classifier,
the batch join-request processor, the membership-event tracker and the
manual-override path, shallowly embedded as executable Lean functions, with
theorems settling the testable properties of the specification.
-/

namespace ApprovalBot

/-! ## String utilities

Python's `needle in haystack` substring test, modelled on character lists. -/

/-- `listStarts needle hay` : `hay` begins with `needle`. -/
def listStarts : List Char → List Char → Bool
  | [], _ => true
  | _ :: _, [] => false
  | a :: as, b :: bs => a == b && listStarts as bs

/-- `listHasSub needle hay` : `needle` occurs contiguously in `hay`
(Python `needle in hay` for strings; an empty needle always matches). -/
def listHasSub (needle : List Char) : List Char → Bool
  | [] => listStarts needle []
  | c :: t => listStarts needle (c :: t) || listHasSub needle t

/-- Python truthiness of an optional string: `None` and `""` are falsy. -/
def truthy : Option String → Bool
  | none => false
  | some s => s != ""

/-! ## Suspicion criteria (module-level constants of `bot.py`) -/

/-- `MIN_ACCOUNT_AGE_DAYS = 30` in `bot.py`. -/
def MIN_ACCOUNT_AGE_DAYS : Int := 30

/-- `SUSPICIOUS_NAMES` in `bot.py`. -/
def SUSPICIOUS_NAMES : List String :=
  ["deleted account", "bot", "bots", "police", "telegram", "admin", "support",
   "official", "http", "www", ".com", ".ru", ".xyz", "click", "promo", "sales"]

/-- The keyword loop of `is_suspicious_user`: some keyword of
`SUSPICIOUS_NAMES` occurs in the lower-cased field (Python `str.lower` is
character-wise for the ASCII text these keywords consist of). -/
def matchesSuspicious (s : String) : Bool :=
  SUSPICIOUS_NAMES.any (fun k => listHasSub k.data (s.data.map Char.toLower))

/-! ## User profiles and the classifier -/

/-- A Telegram user profile as read by `is_suspicious_user`.
`created_at` is an account-creation timestamp in whole days (the code
compares `(datetime.now() - user.created_at).days` against the threshold,
so day granularity is what the logic observes). -/
structure UserProfile where
  id : Int
  username : Option String
  first_name : Option String
  last_name : Option String
  created_at : Option Int
deriving DecidableEq, Repr

/-- The account-age block of `is_suspicious_user` (bot.py lines 108-111):
`some` = the block returns early with that result, `none` = fall through.
A `datetime` is always truthy in Python, so only presence is tested. -/
def checkAccountAge (now : Int) (user : UserProfile) : Option (Bool × String) :=
  match user.created_at with
  | some ts =>
    if now - ts < MIN_ACCOUNT_AGE_DAYS then
      some (true, "Account too new (" ++ toString (now - ts) ++ " days)")
    else none
  | none => none

/-- One `if <field>:` keyword-loop block of `is_suspicious_user`
(bot.py lines 113-129): the guard is Python truthiness of the field
(absent or empty falls through), and the reason echoes the raw field. -/
def checkField (label : String) (field : Option String) : Option (Bool × String) :=
  match field with
  | some s =>
    if (s != "") && matchesSuspicious s then some (true, label ++ s) else none
  | none => none

/-- `is_suspicious_user` (bot.py lines 106-137): returns
`(is_suspicious, reason)`, evaluating the blocks in source order and
returning at the first early return. `now` is the current time in days. -/
def is_suspicious_user (now : Int) (user : UserProfile) : Bool × String :=
  match checkAccountAge now user with
  | some r => r
  | none =>
  match checkField "Suspicious username: " user.username with
  | some r => r
  | none =>
  match checkField "Suspicious first name: " user.first_name with
  | some r => r
  | none =>
  match checkField "Suspicious last name: " user.last_name with
  | some r => r
  | none =>
  if !(truthy user.username) then (true, "No username")
  else (false, "User appears legitimate")

/-! ## The membership ledger

`left_users` in `bot.py` is a JSON-backed Python dict mapping the string
form of a user id to the list of channel ids the user left. A Python dict
preserves insertion order and has unique keys; we model it as an
association list. -/

/-- The ledger: insertion-ordered association list from user-id string to
the list of channel ids that user left (`left_users` / `left_users.json`). -/
abbrev Ledger := List (String × List Int)

/-- `str(user.id) in left_users and channel_id in left_users[str(user.id)]`
(bot.py line 195, and the guard of lines 313). -/
def hasLeft (L : Ledger) (u : String) (c : Int) : Bool :=
  match L.lookup u with
  | some cs => cs.contains c
  | none => false

/-- Reassign the value stored under key `u` (Python `d[u] = cs` for an
existing key: the binding is updated in place, order preserved). -/
def updateEntry (L : Ledger) (u : String) (cs : List Int) : Ledger :=
  L.map (fun p => if p.1 == u then (p.1, cs) else p)

/-- The ledger write of `track_chat_members` (bot.py lines 154-159):
create the entry if absent, then append the channel if not yet present. -/
def recordLeft (L : Ledger) (u : String) (c : Int) : Ledger :=
  match L.lookup u with
  | none => L ++ [(u, [c])]
  | some cs => if cs.contains c then L else updateEntry L u (cs ++ [c])

/-- The ledger write of `manual_approve` (bot.py lines 313-317): if the
channel is recorded for the user, remove it (Python `list.remove` drops the
first occurrence), deleting the whole entry when the list becomes empty. -/
def clear (L : Ledger) (u : String) (c : Int) : Ledger :=
  match L.lookup u with
  | none => L
  | some cs =>
    if cs.contains c then
      let cs' := cs.erase c
      if cs'.isEmpty then L.filter (fun p => !(p.1 == u))
      else updateEntry L u cs'
    else L

/-- Well-formedness the Python dict guarantees: every stored channel list
is duplicate-free (channels are only appended when absent). -/
def entriesNodup (L : Ledger) : Prop := ∀ p ∈ L, List.Nodup p.2

/-- No entry has an empty channel list (the data-model invariant: an
emptied entry is deleted, never left behind). -/
def noEmptyEntries (L : Ledger) : Prop := ∀ p ∈ L, p.2 ≠ []

/-! ## Ledger lemmas -/

theorem lookup_cons_self {β : Type} (t : List (String × β)) (u : String) (v : β) :
    List.lookup u ((u, v) :: t) = some v := by
  simp [List.lookup]

theorem lookup_cons_ne {β : Type} (t : List (String × β)) (k u : String) (v : β)
    (h : ¬ k = u) : List.lookup u ((k, v) :: t) = List.lookup u t := by
  have hb : (u == k) = false := beq_eq_false_iff_ne.mpr (Ne.symm h)
  simp [List.lookup, hb]

theorem lookup_append_none {β : Type} (L M : List (String × β)) (u : String)
    (h : L.lookup u = none) : (L ++ M).lookup u = M.lookup u := by
  induction L with
  | nil => rfl
  | cons p t ih =>
    obtain ⟨k, v⟩ := p
    by_cases hk : k = u
    · subst hk
      rw [lookup_cons_self] at h
      exact absurd h (by simp)
    · rw [List.cons_append, lookup_cons_ne _ _ _ _ hk]
      rw [lookup_cons_ne _ _ _ _ hk] at h
      exact ih h

theorem lookup_updateEntry (L : Ledger) (u : String) (cs : List Int) :
    (updateEntry L u cs).lookup u = (L.lookup u).map (fun _ => cs) := by
  induction L with
  | nil => rfl
  | cons p t ih =>
    obtain ⟨k, v⟩ := p
    by_cases hk : k = u
    · subst hk
      have e1 : updateEntry ((k, v) :: t) k cs = (k, cs) :: updateEntry t k cs := by
        simp [updateEntry]
      rw [e1, lookup_cons_self, lookup_cons_self]
      rfl
    · have hb : (k == u) = false := beq_eq_false_iff_ne.mpr hk
      have e1 : updateEntry ((k, v) :: t) u cs = (k, v) :: updateEntry t u cs := by
        simp [updateEntry, hk]
      rw [e1, lookup_cons_ne _ _ _ _ hk, lookup_cons_ne _ _ _ _ hk]
      exact ih

theorem lookup_filter_out (L : Ledger) (u : String) :
    (L.filter (fun p => !(p.1 == u))).lookup u = none := by
  induction L with
  | nil => rfl
  | cons p t ih =>
    obtain ⟨k, v⟩ := p
    by_cases hk : k = u
    · subst hk
      simp only [List.filter_cons]
      simpa using ih
    · have hb : (k == u) = false := beq_eq_false_iff_ne.mpr hk
      simp only [List.filter_cons, hb]
      simpa [lookup_cons_ne _ _ _ _ hk] using ih

theorem lookup_mem (L : Ledger) (u : String) (cs : List Int)
    (h : L.lookup u = some cs) : (u, cs) ∈ L := by
  induction L with
  | nil => exact absurd h (by simp [List.lookup])
  | cons p t ih =>
    obtain ⟨k, v⟩ := p
    by_cases hk : k = u
    · subst hk
      rw [lookup_cons_self] at h
      obtain rfl := Option.some.inj h
      exact List.mem_cons_self _ _
    · rw [lookup_cons_ne _ _ _ _ hk] at h
      exact List.mem_cons_of_mem _ (ih h)

theorem hasLeft_lookup_some {L : Ledger} {u : String} {cs : List Int}
    (h : L.lookup u = some cs) (c : Int) : hasLeft L u c = cs.contains c := by
  unfold hasLeft; rw [h]

theorem hasLeft_lookup_none {L : Ledger} {u : String}
    (h : L.lookup u = none) (c : Int) : hasLeft L u c = false := by
  unfold hasLeft; rw [h]

theorem recordLeft_lookup_none {L : Ledger} {u : String} (c : Int)
    (h : L.lookup u = none) : recordLeft L u c = L ++ [(u, [c])] := by
  unfold recordLeft; rw [h]

theorem recordLeft_lookup_mem {L : Ledger} {u : String} {cs : List Int} {c : Int}
    (h : L.lookup u = some cs) (hc : c ∈ cs) : recordLeft L u c = L := by
  unfold recordLeft
  rw [h]
  simp [hc]

theorem recordLeft_lookup_not_mem {L : Ledger} {u : String} {cs : List Int} {c : Int}
    (h : L.lookup u = some cs) (hc : ¬ c ∈ cs) :
    recordLeft L u c = updateEntry L u (cs ++ [c]) := by
  unfold recordLeft
  rw [h]
  simp [hc]

theorem hasLeft_recordLeft (L : Ledger) (u : String) (c : Int) :
    hasLeft (recordLeft L u c) u c = true := by
  cases h : L.lookup u with
  | none =>
    rw [recordLeft_lookup_none c h]
    unfold hasLeft
    rw [lookup_append_none _ _ _ h, lookup_cons_self]
    simp
  | some cs =>
    by_cases hc : c ∈ cs
    · rw [recordLeft_lookup_mem h hc, hasLeft_lookup_some h]
      exact List.elem_eq_true_of_mem hc
    · rw [recordLeft_lookup_not_mem h hc]
      unfold hasLeft
      rw [lookup_updateEntry, h]
      simp

theorem recordLeft_noop (L : Ledger) (u : String) (c : Int)
    (h : hasLeft L u c = true) : recordLeft L u c = L := by
  cases hl : L.lookup u with
  | none => rw [hasLeft_lookup_none hl] at h; exact absurd h (by simp)
  | some cs =>
    rw [hasLeft_lookup_some hl] at h
    exact recordLeft_lookup_mem hl (List.elem_iff.mp h)

theorem recordLeft_idem (L : Ledger) (u : String) (c : Int) :
    recordLeft (recordLeft L u c) u c = recordLeft L u c :=
  recordLeft_noop _ _ _ (hasLeft_recordLeft L u c)

theorem clear_lookup_none {L : Ledger} {u : String} (c : Int)
    (h : L.lookup u = none) : clear L u c = L := by
  unfold clear; rw [h]

theorem clear_lookup_not_mem {L : Ledger} {u : String} {cs : List Int} {c : Int}
    (h : L.lookup u = some cs) (hc : ¬ c ∈ cs) : clear L u c = L := by
  unfold clear
  rw [h]
  simp [hc]

theorem clear_lookup_mem_last {L : Ledger} {u : String} {cs : List Int} {c : Int}
    (h : L.lookup u = some cs) (hc : c ∈ cs) (he : cs.erase c = []) :
    clear L u c = L.filter (fun p => !(p.1 == u)) := by
  unfold clear
  rw [h]
  simp [hc, he]

theorem clear_lookup_mem_more {L : Ledger} {u : String} {cs : List Int} {c : Int}
    (h : L.lookup u = some cs) (hc : c ∈ cs) (he : ¬ cs.erase c = []) :
    clear L u c = updateEntry L u (cs.erase c) := by
  unfold clear
  rw [h]
  simp [hc, he]

theorem clear_noop (L : Ledger) (u : String) (c : Int)
    (h : hasLeft L u c = false) : clear L u c = L := by
  cases hl : L.lookup u with
  | none => exact clear_lookup_none c hl
  | some cs =>
    rw [hasLeft_lookup_some hl] at h
    refine clear_lookup_not_mem hl ?_
    intro hm
    have hct : cs.contains c = true := List.elem_eq_true_of_mem hm
    rw [hct] at h
    exact absurd h (by simp)

theorem nodup_of_lookup {L : Ledger} {u : String} {cs : List Int}
    (hN : entriesNodup L) (h : L.lookup u = some cs) : cs.Nodup :=
  hN (u, cs) (lookup_mem L u cs h)

theorem hasLeft_clear (L : Ledger) (u : String) (c : Int)
    (hN : entriesNodup L) : hasLeft (clear L u c) u c = false := by
  cases h : L.lookup u with
  | none => rw [clear_lookup_none c h]; exact hasLeft_lookup_none h c
  | some cs =>
    by_cases hc : c ∈ cs
    · by_cases he : cs.erase c = []
      · rw [clear_lookup_mem_last h hc he]
        exact hasLeft_lookup_none (lookup_filter_out L u) c
      · rw [clear_lookup_mem_more h hc he]
        unfold hasLeft
        rw [lookup_updateEntry, h]
        have : ¬ c ∈ cs.erase c := (nodup_of_lookup hN h).not_mem_erase
        simp [this]
    · rw [clear_lookup_not_mem h hc, hasLeft_lookup_some h]
      simp [hc]

theorem clear_idem (L : Ledger) (u : String) (c : Int)
    (hN : entriesNodup L) : clear (clear L u c) u c = clear L u c :=
  clear_noop _ _ _ (hasLeft_clear L u c hN)

theorem entriesNodup_recordLeft (L : Ledger) (u : String) (c : Int)
    (hN : entriesNodup L) : entriesNodup (recordLeft L u c) := by
  cases h : L.lookup u with
  | none =>
    rw [recordLeft_lookup_none c h]
    intro p hp
    rcases List.mem_append.mp hp with hL | hR
    · exact hN p hL
    · rcases List.mem_singleton.mp hR with rfl
      simp
  | some cs =>
    by_cases hc : c ∈ cs
    · rw [recordLeft_lookup_mem h hc]; exact hN
    · rw [recordLeft_lookup_not_mem h hc]
      intro p hp
      rcases List.mem_map.mp hp with ⟨q, hq, rfl⟩
      by_cases hk : (q.1 == u) = true
      · simp only [if_pos hk]
        have h1 : cs.Nodup := nodup_of_lookup hN h
        simp [List.nodup_append, h1, hc]
      · simp only [if_neg hk]
        exact hN q hq

theorem entriesNodup_clear (L : Ledger) (u : String) (c : Int)
    (hN : entriesNodup L) : entriesNodup (clear L u c) := by
  cases h : L.lookup u with
  | none => rw [clear_lookup_none c h]; exact hN
  | some cs =>
    by_cases hc : c ∈ cs
    · by_cases he : cs.erase c = []
      · rw [clear_lookup_mem_last h hc he]
        intro p hp
        exact hN p (List.mem_of_mem_filter hp)
      · rw [clear_lookup_mem_more h hc he]
        intro p hp
        rcases List.mem_map.mp hp with ⟨q, hq, rfl⟩
        by_cases hk : (q.1 == u) = true
        · simp only [if_pos hk]
          exact (nodup_of_lookup hN h).erase c
        · simp only [if_neg hk]
          exact hN q hq
    · rw [clear_lookup_not_mem h hc]; exact hN

theorem noEmptyEntries_recordLeft (L : Ledger) (u : String) (c : Int)
    (hE : noEmptyEntries L) : noEmptyEntries (recordLeft L u c) := by
  cases h : L.lookup u with
  | none =>
    rw [recordLeft_lookup_none c h]
    intro p hp
    rcases List.mem_append.mp hp with hL | hR
    · exact hE p hL
    · rcases List.mem_singleton.mp hR with rfl
      simp
  | some cs =>
    by_cases hc : c ∈ cs
    · rw [recordLeft_lookup_mem h hc]; exact hE
    · rw [recordLeft_lookup_not_mem h hc]
      intro p hp
      rcases List.mem_map.mp hp with ⟨q, hq, rfl⟩
      by_cases hk : (q.1 == u) = true
      · simp only [if_pos hk]
        simp
      · simp only [if_neg hk]
        exact hE q hq

theorem noEmptyEntries_clear (L : Ledger) (u : String) (c : Int)
    (hE : noEmptyEntries L) : noEmptyEntries (clear L u c) := by
  cases h : L.lookup u with
  | none => rw [clear_lookup_none c h]; exact hE
  | some cs =>
    by_cases hc : c ∈ cs
    · by_cases he : cs.erase c = []
      · rw [clear_lookup_mem_last h hc he]
        intro p hp
        exact hE p (List.mem_of_mem_filter hp)
      · rw [clear_lookup_mem_more h hc he]
        intro p hp
        rcases List.mem_map.mp hp with ⟨q, hq, rfl⟩
        by_cases hk : (q.1 == u) = true
        · simp only [if_pos hk]
          exact he
        · simp only [if_neg hk]
          exact hE q hq
    · rw [clear_lookup_not_mem h hc]; exact hE

theorem clear_last_channel (L : Ledger) (u : String) (c : Int)
    (h : L.lookup u = some [c]) :
    (clear L u c).lookup u = none ∧ ∀ p ∈ clear L u c, p.1 ≠ u := by
  have hc : c ∈ [c] := List.mem_singleton_self c
  have he : List.erase [c] c = [] := by simp
  rw [clear_lookup_mem_last h hc he]
  constructor
  · exact lookup_filter_out L u
  · intro p hp
    have := List.of_mem_filter hp
    simpa using this

/-! ## Membership event tracker

`track_chat_members` (bot.py lines 139-164): consumes one membership
transition and updates the ledger when an active member departs a
monitored channel. -/

/-- `track_chat_members`: the embedded ledger effect of one chat-member
update with `old_status`/`new_status` and the acting user. `CH` is the
monitored set `CHANNEL_IDS`. -/
def track_chat_members (CH : List Int) (L : Ledger) (chat_id : Int)
    (old_status new_status : String) (user_id : Int) : Ledger :=
  if !(CH.contains chat_id) then L
  else if (["member", "administrator", "creator"].contains old_status) &&
          (["left", "kicked"].contains new_status) then
    recordLeft L (toString user_id) chat_id
  else L

/-! ## Batch admission processor

`approve_all_pending` (bot.py lines 166-242). External calls are modelled
by a `World` oracle; the bot API calls the run issues, and the classifier
consultations it makes, are recorded as an event trace. -/

/-- A pending join request as returned by `get_chat_join_requests`. -/
structure JoinRequest where
  from_user : UserProfile
deriving DecidableEq, Repr

/-- The external messaging platform: per-channel fetch result (`none`
inside `ok` models a falsy/`None` API result, an exception models a failed
fetch), a channel-name resolver (`get_channel_username`), and the clock. -/
structure World where
  fetch : Int → Except String (Option (List JoinRequest))
  chanName : Int → String
  now : Int

/-- Observable calls made while processing: bot API approve/decline and
internal consultations of the suspicion classifier. -/
inductive Event where
  | approveCall (channel : Int) (user : Int)
  | declineCall (channel : Int) (user : Int)
  | classifierCall (user : Int)
deriving DecidableEq, Repr

/-- The per-request loop of `approve_all_pending` (bot.py lines 191-216),
threading the ledger it reads. Returns
`(ledger, approved_count, rejected_count, events)`. -/
def processPending (now : Int) (cid : Int) :
    Ledger → List JoinRequest → Ledger × Nat × Nat × List Event
  | L, [] => (L, 0, 0, [])
  | L, req :: rest =>
    let user := req.from_user
    if hasLeft L (toString user.id) cid then
      let r := processPending now cid L rest
      (r.1, r.2.1, r.2.2.1 + 1, Event.declineCall cid user.id :: r.2.2.2)
    else
      let verdict := is_suspicious_user now user
      if !verdict.1 then
        let r := processPending now cid L rest
        (r.1, r.2.1 + 1, r.2.2.1,
         Event.classifierCall user.id :: Event.approveCall cid user.id :: r.2.2.2)
      else
        let r := processPending now cid L rest
        (r.1, r.2.1, r.2.2.1 + 1,
         Event.classifierCall user.id :: Event.declineCall cid user.id :: r.2.2.2)

/-- The per-channel success status line (bot.py line 219). -/
def tallyLine (name : String) (approved rejected : Nat) : String :=
  name ++ ": Approved " ++ toString approved ++ ", Rejected " ++ toString rejected

/-- The per-channel error status line (bot.py line 228). -/
def errorLine (name : String) (e : String) : String :=
  "Error processing " ++ name ++ ": " ++ e

/-- `pending_requests = [] if not result else result` (bot.py line 186):
a falsy fetch result (`None` or the empty list) yields the empty list. -/
def pendingOf : Option (List JoinRequest) → List JoinRequest
  | none => []
  | some l => l

/-- One iteration of the channel loop (bot.py lines 183-230): fetch, run
the request loop, and produce either a tally or an error line. -/
def processChannel (w : World) (L : Ledger) (cid : Int) :
    (Ledger × Nat × Nat × List Event × String) ⊕ String :=
  match w.fetch cid with
  | Except.error e => Sum.inr (errorLine (w.chanName cid) e)
  | Except.ok result =>
    let pending := pendingOf result
    let r := processPending w.now cid L pending
    Sum.inl (r.1, r.2.1, r.2.2.1, r.2.2.2,
             tallyLine (w.chanName cid) r.2.1 r.2.2.1)

/-- The channel loop of `approve_all_pending` (bot.py lines 179-230),
accumulating totals, report lines and events. `if not channel_id: continue`
skips a falsy (zero) channel id. Returns
`(ledger, total_approved, total_rejected, report_lines, events)`. -/
def runChannels (w : World) :
    Ledger → List Int → Ledger × Nat × Nat × List String × List Event
  | L, [] => (L, 0, 0, [], [])
  | L, cid :: rest =>
    if cid == 0 then runChannels w L rest
    else
      match processChannel w L cid with
      | Sum.inl r =>
        let t := runChannels w r.1 rest
        (t.1, r.2.1 + t.2.1, r.2.2.1 + t.2.2.1,
         r.2.2.2.2 :: t.2.2.2.1, r.2.2.2.1 ++ t.2.2.2.2)
      | Sum.inr err =>
        let t := runChannels w L rest
        (t.1, t.2.1, t.2.2.1, err :: t.2.2.2.1, t.2.2.2.2)

/-- `approve_all_pending` (bot.py lines 166-242): resolve the channel
target (`[specific_channel_id] if specific_channel_id else CHANNEL_IDS`,
with Python truthiness on the id) and run the channel loop. The summary
message assembled from the returned report is orchestrator glue. -/
def approve_all_pending (w : World) (CH : List Int) (L : Ledger)
    (specific_channel_id : Option Int) :
    Ledger × Nat × Nat × List String × List Event :=
  let channels_to_process := match specific_channel_id with
    | some c => if c == 0 then CH else [c]
    | none => CH
  runChannels w L channels_to_process

/-! ## Manual override

`manual_approve` (bot.py lines 283-336): clear the ledger entry for each
resolved monitored channel, then approve unconditionally. -/

/-- The channel loop of `manual_approve` (bot.py lines 308-323). Returns
`(ledger, events, approved_channel_names)`. -/
def manualLoop (CH : List Int) (nameOf : Int → String) (uid : Int) :
    Ledger → List Int → Ledger × List Event × List String
  | L, [] => (L, [], [])
  | L, ch :: rest =>
    if CH.contains ch then
      let L1 := clear L (toString uid) ch
      let r := manualLoop CH nameOf uid L1 rest
      (r.1, Event.approveCall ch uid :: r.2.1, nameOf ch :: r.2.2)
    else manualLoop CH nameOf uid L rest

/-- `manual_approve`: resolve the channel argument
(`[channel_id] if channel_id else CHANNEL_IDS`, Python truthiness) and run
the loop. `uid` is the target user; the ledger key is `str(user_id)`. -/
def manual_approve (CH : List Int) (nameOf : Int → String) (L : Ledger)
    (uid : Int) (channel_id : Option Int) : Ledger × List Event × List String :=
  let channels_to_approve := match channel_id with
    | some c => if c == 0 then CH else [c]
    | none => CH
  manualLoop CH nameOf uid L channels_to_approve

/-! ## State-threading form of the classifier

`is_suspicious_user` declares no `global` and assigns no module state; the
state-threading translation therefore passes the ledger through each block
untouched. Written out block by block so the absence of writes is visible
per branch. -/

/-- `is_suspicious_user` with the process-wide mutable state (the ledger)
threaded through every evaluation step, as a Python-side effect analysis
would see it. -/
def is_suspicious_userS (L : Ledger) (now : Int) (user : UserProfile) :
    Ledger × Bool × String :=
  match checkAccountAge now user with
  | some r => (L, r)
  | none =>
  match checkField "Suspicious username: " user.username with
  | some r => (L, r)
  | none =>
  match checkField "Suspicious first name: " user.first_name with
  | some r => (L, r)
  | none =>
  match checkField "Suspicious last name: " user.last_name with
  | some r => (L, r)
  | none =>
  if !(truthy user.username) then (L, true, "No username")
  else (L, false, "User appears legitimate")

/-! ## Processor lemmas -/

theorem processPending_cons (now cid : Int) (L : Ledger) (req : JoinRequest)
    (rest : List JoinRequest) :
    processPending now cid L (req :: rest) =
      if hasLeft L (toString req.from_user.id) cid then
        ((processPending now cid L rest).1, (processPending now cid L rest).2.1,
         (processPending now cid L rest).2.2.1 + 1,
         Event.declineCall cid req.from_user.id :: (processPending now cid L rest).2.2.2)
      else if !(is_suspicious_user now req.from_user).1 then
        ((processPending now cid L rest).1, (processPending now cid L rest).2.1 + 1,
         (processPending now cid L rest).2.2.1,
         Event.classifierCall req.from_user.id :: Event.approveCall cid req.from_user.id ::
           (processPending now cid L rest).2.2.2)
      else
        ((processPending now cid L rest).1, (processPending now cid L rest).2.1,
         (processPending now cid L rest).2.2.1 + 1,
         Event.classifierCall req.from_user.id :: Event.declineCall cid req.from_user.id ::
           (processPending now cid L rest).2.2.2) := rfl

theorem processPending_ledger (now cid : Int) (L : Ledger) (reqs : List JoinRequest) :
    (processPending now cid L reqs).1 = L := by
  induction reqs with
  | nil => rfl
  | cons req rest ih =>
    rw [processPending_cons]
    by_cases h1 : hasLeft L (toString req.from_user.id) cid = true
    · rw [if_pos h1]; exact ih
    · rw [if_neg h1]
      by_cases h2 : (!(is_suspicious_user now req.from_user).1) = true
      · rw [if_pos h2]; exact ih
      · rw [if_neg h2]; exact ih

theorem processPending_append (now cid : Int) (L : Ledger) (xs ys : List JoinRequest) :
    processPending now cid L (xs ++ ys) =
      (L, (processPending now cid L xs).2.1 + (processPending now cid L ys).2.1,
          (processPending now cid L xs).2.2.1 + (processPending now cid L ys).2.2.1,
          (processPending now cid L xs).2.2.2 ++ (processPending now cid L ys).2.2.2) := by
  induction xs with
  | nil =>
    simp only [List.nil_append, processPending, Nat.zero_add]
    conv_lhs => rw [show processPending now cid L ys =
      ((processPending now cid L ys).1, (processPending now cid L ys).2.1,
       (processPending now cid L ys).2.2.1, (processPending now cid L ys).2.2.2) from rfl]
    rw [processPending_ledger]
  | cons req rest ih =>
    simp only [List.cons_append, processPending_cons, ih]
    by_cases h1 : hasLeft L (toString req.from_user.id) cid = true
    · simp [if_pos h1, Prod.mk.injEq] <;> omega
    · rw [if_neg h1, if_neg h1]
      by_cases h2 : (!(is_suspicious_user now req.from_user).1) = true
      · rw [if_pos h2, if_pos h2]
        simp [Prod.mk.injEq] <;> omega
      · rw [if_neg h2, if_neg h2]
        simp [Prod.mk.injEq] <;> omega

theorem processChannel_error {w : World} {cid : Int} {e : String} (L : Ledger)
    (hf : w.fetch cid = Except.error e) :
    processChannel w L cid = Sum.inr (errorLine (w.chanName cid) e) := by
  unfold processChannel; rw [hf]

theorem processChannel_ok {w : World} {cid : Int} {o : Option (List JoinRequest)}
    (L : Ledger) (hf : w.fetch cid = Except.ok o) :
    processChannel w L cid =
      Sum.inl (L, (processPending w.now cid L (pendingOf o)).2.1,
               (processPending w.now cid L (pendingOf o)).2.2.1,
               (processPending w.now cid L (pendingOf o)).2.2.2,
               tallyLine (w.chanName cid) (processPending w.now cid L (pendingOf o)).2.1
                 (processPending w.now cid L (pendingOf o)).2.2.1) := by
  have h1 : (processPending w.now cid L (pendingOf o)).1 = L :=
    processPending_ledger _ _ _ _
  unfold processChannel
  rw [hf]
  simp [h1]

theorem runChannels_cons (w : World) (L : Ledger) (cid : Int) (rest : List Int) :
    runChannels w L (cid :: rest) =
      if cid == 0 then runChannels w L rest
      else
        match processChannel w L cid with
        | Sum.inl r =>
          ((runChannels w r.1 rest).1, r.2.1 + (runChannels w r.1 rest).2.1,
           r.2.2.1 + (runChannels w r.1 rest).2.2.1,
           r.2.2.2.2 :: (runChannels w r.1 rest).2.2.2.1,
           r.2.2.2.1 ++ (runChannels w r.1 rest).2.2.2.2)
        | Sum.inr err =>
          ((runChannels w L rest).1, (runChannels w L rest).2.1,
           (runChannels w L rest).2.2.1, err :: (runChannels w L rest).2.2.2.1,
           (runChannels w L rest).2.2.2.2) := rfl

theorem runChannels_cons_error {w : World} {cid : Int} {e : String}
    (L : Ledger) (rest : List Int) (h0 : ¬ cid = 0)
    (hf : w.fetch cid = Except.error e) :
    runChannels w L (cid :: rest) =
      ((runChannels w L rest).1, (runChannels w L rest).2.1,
       (runChannels w L rest).2.2.1,
       errorLine (w.chanName cid) e :: (runChannels w L rest).2.2.2.1,
       (runChannels w L rest).2.2.2.2) := by
  have hb : (cid == 0) = false := beq_eq_false_iff_ne.mpr h0
  rw [runChannels_cons, if_neg (by simp [hb]), processChannel_error L hf]

theorem runChannels_cons_ok {w : World} {cid : Int} {o : Option (List JoinRequest)}
    (L : Ledger) (rest : List Int) (h0 : ¬ cid = 0)
    (hf : w.fetch cid = Except.ok o) :
    runChannels w L (cid :: rest) =
      ((runChannels w L rest).1,
       (processPending w.now cid L (pendingOf o)).2.1 + (runChannels w L rest).2.1,
       (processPending w.now cid L (pendingOf o)).2.2.1 + (runChannels w L rest).2.2.1,
       tallyLine (w.chanName cid) (processPending w.now cid L (pendingOf o)).2.1
           (processPending w.now cid L (pendingOf o)).2.2.1 ::
         (runChannels w L rest).2.2.2.1,
       (processPending w.now cid L (pendingOf o)).2.2.2 ++
         (runChannels w L rest).2.2.2.2) := by
  have hb : (cid == 0) = false := beq_eq_false_iff_ne.mpr h0
  rw [runChannels_cons, if_neg (by simp [hb]), processChannel_ok L hf]

theorem runChannels_ledger (w : World) (chs : List Int) :
    ∀ L : Ledger, (runChannels w L chs).1 = L := by
  induction chs with
  | nil => intro L; rfl
  | cons cid rest ih =>
    intro L
    rw [runChannels_cons]
    by_cases h0 : cid = 0
    · rw [if_pos (by simp [h0])]
      exact ih L
    · have hb : (cid == 0) = false := beq_eq_false_iff_ne.mpr h0
      rw [if_neg (by simp [hb])]
      cases hf : w.fetch cid with
      | error e => rw [processChannel_error L hf]; exact ih L
      | ok o => rw [processChannel_ok L hf]; exact ih L

/-! ## Classifier lemmas -/

/-- Spec rule 1: the account-creation timestamp is known and the account is
younger than the threshold. -/
def ruleAccountTooNew (now : Int) (u : UserProfile) : Prop :=
  ∃ ts, u.created_at = some ts ∧ now - ts < MIN_ACCOUNT_AGE_DAYS

/-- Spec rules 2-4: the field is present (and non-empty, as Python
truthiness requires) and contains a suspicious substring. -/
def ruleSuspiciousText (field : Option String) : Prop :=
  ∃ s, field = some s ∧ s ≠ "" ∧ matchesSuspicious s = true

/-- Spec rule 5: the handle is absent entirely. -/
def ruleNoHandle (u : UserProfile) : Prop := truthy u.username = false

theorem checkAccountAge_none_iff (now : Int) (u : UserProfile) :
    checkAccountAge now u = none ↔ ¬ ruleAccountTooNew now u := by
  unfold checkAccountAge ruleAccountTooNew
  cases h : u.created_at with
  | none => simp
  | some ts =>
    by_cases hlt : now - ts < MIN_ACCOUNT_AGE_DAYS
    · simp [hlt]
    · simp [hlt]

theorem checkAccountAge_of_rule {now : Int} {u : UserProfile}
    (h : ruleAccountTooNew now u) :
    ∃ ts, u.created_at = some ts ∧
      checkAccountAge now u =
        some (true, "Account too new (" ++ toString (now - ts) ++ " days)") := by
  obtain ⟨ts, hts, hlt⟩ := h
  exact ⟨ts, hts, by unfold checkAccountAge; rw [hts]; simp [hlt]⟩

theorem checkField_none_iff (label : String) (field : Option String) :
    checkField label field = none ↔ ¬ ruleSuspiciousText field := by
  unfold checkField ruleSuspiciousText
  cases h : field with
  | none => simp
  | some s =>
    by_cases h1 : s = ""
    · simp [h1]
    · by_cases h2 : matchesSuspicious s = true
      · simp [h1, h2]
      · simp [h1, h2]

theorem checkField_of_rule {field : Option String} (label : String)
    (h : ruleSuspiciousText field) :
    ∃ s, field = some s ∧ checkField label field = some (true, label ++ s) := by
  obtain ⟨s, hs, hne, hm⟩ := h
  refine ⟨s, hs, ?_⟩
  unfold checkField
  rw [hs]
  simp [hne, hm]

theorem is_suspicious_userS_eq (L : Ledger) (now : Int) (u : UserProfile) :
    is_suspicious_userS L now u = (L, is_suspicious_user now u) := by
  unfold is_suspicious_userS is_suspicious_user
  cases checkAccountAge now u <;>
  cases checkField "Suspicious username: " u.username <;>
  cases checkField "Suspicious first name: " u.first_name <;>
  cases checkField "Suspicious last name: " u.last_name <;>
  cases h : !(truthy u.username) <;> simp [h]

/-! ## Status sets of the membership event tracker -/

/-- Active membership statuses, per the source list at bot.py line 150. -/
def activeStatus (s : String) : Prop :=
  s = "member" ∨ s = "administrator" ∨ s = "creator"

/-- Departed membership statuses, per the source list at bot.py line 151. -/
def departedStatus (s : String) : Prop := s = "left" ∨ s = "kicked"

theorem activeStatus_iff (s : String) :
    (["member", "administrator", "creator"].contains s) = true ↔ activeStatus s := by
  rw [List.elem_iff]
  simp [activeStatus]

theorem departedStatus_iff (s : String) :
    (["left", "kicked"].contains s) = true ↔ departedStatus s := by
  rw [List.elem_iff]
  simp [departedStatus]

/-! ## Claim theorems -/

/-- C7: for all users u and channels c, after `recordLeft(u,c)`,
`hasLeft(u,c)` is true; after a subsequent `clear(u,c)`, `hasLeft(u,c)` is
false; and both `recordLeft` and `clear` are idempotent: performing either
twice in a row yields the same ledger state as performing it once. -/
theorem ledger_record_clear_idempotent (L : Ledger) (u : String) (c : Int)
    (hN : entriesNodup L) :
    hasLeft (recordLeft L u c) u c = true ∧
    hasLeft (clear (recordLeft L u c) u c) u c = false ∧
    recordLeft (recordLeft L u c) u c = recordLeft L u c ∧
    clear (clear L u c) u c = clear L u c :=
  ⟨hasLeft_recordLeft L u c,
   hasLeft_clear _ u c (entriesNodup_recordLeft L u c hN),
   recordLeft_idem L u c,
   clear_idem L u c hN⟩

/-- Witness for C7 at the concrete ledger `[("5", [1])]`, user "7",
channel 3. -/
theorem ledger_record_clear_idempotent_witness :
    entriesNodup [("5", [1])] ∧
    (hasLeft (recordLeft [("5", [1])] "7" 3) "7" 3 = true ∧
     hasLeft (clear (recordLeft [("5", [1])] "7" 3) "7" 3) "7" 3 = false ∧
     recordLeft (recordLeft [("5", [1])] "7" 3) "7" 3 = recordLeft [("5", [1])] "7" 3 ∧
     clear (clear [("5", [1])] "7" 3) "7" 3 = clear [("5", [1])] "7" 3) :=
  ⟨by unfold entriesNodup; decide,
   ledger_record_clear_idempotent [("5", [1])] "7" 3 (by unfold entriesNodup; decide)⟩

/-- C8: the ledger operations never create an entry with an empty channel
set: `recordLeft` and `clear` preserve `noEmptyEntries`, and clearing a
user's last remaining channel removes the user's entry entirely, so the
user is absent from the ledger (a `listAll` over the association list
contains no pair with that key). -/
theorem ledger_no_empty_entries (L : Ledger) (u : String) (c : Int)
    (hE : noEmptyEntries L) :
    noEmptyEntries (recordLeft L u c) ∧
    noEmptyEntries (clear L u c) ∧
    (L.lookup u = some [c] →
      (clear L u c).lookup u = none ∧ ∀ p ∈ clear L u c, p.1 ≠ u) :=
  ⟨noEmptyEntries_recordLeft L u c hE, noEmptyEntries_clear L u c hE,
   fun h => clear_last_channel L u c h⟩

/-- Witness for C8 at the concrete ledger `[("7", [3])]`: after clearing
the only channel 3 of user "7", the entry is gone. -/
theorem ledger_no_empty_entries_witness :
    noEmptyEntries [("7", [3])] ∧
    (noEmptyEntries (recordLeft [("7", [3])] "7" 3) ∧
     noEmptyEntries (clear [("7", [3])] "7" 3) ∧
     (List.lookup "7" ([("7", [3])] : Ledger) = some [3] →
       (clear [("7", [3])] "7" 3).lookup "7" = none ∧
       ∀ p ∈ clear [("7", [3])] "7" 3, p.1 ≠ "7")) :=
  ⟨by unfold noEmptyEntries; decide,
   ledger_no_empty_entries [("7", [3])] "7" 3 (by unfold noEmptyEntries; decide)⟩

/-- C9: the suspicion classifier is deterministic and pure: threading the
process-wide mutable state through an invocation returns that state
unchanged, the verdict does not depend on the state (so two invocations on
the same profile, from any two program states, return the same verdict),
and the verdict is exactly the pure function of the profile. -/
theorem classifier_deterministic_pure (L1 L2 : Ledger) (now : Int)
    (u : UserProfile) :
    (is_suspicious_userS L1 now u).1 = L1 ∧
    (is_suspicious_userS L1 now u).2 = (is_suspicious_userS L2 now u).2 ∧
    (is_suspicious_userS L1 now u).2 = is_suspicious_user now u := by
  rw [is_suspicious_userS_eq, is_suspicious_userS_eq]
  exact ⟨rfl, rfl, rfl⟩

/-- C10: a batch admission run never mutates the ledger: for every world,
monitored set, starting ledger and channel target, the ledger component of
`approve_all_pending`'s result equals the starting ledger. -/
theorem batch_run_preserves_ledger (w : World) (CH : List Int) (L : Ledger)
    (specific_channel_id : Option Int) :
    (approve_all_pending w CH L specific_channel_id).1 = L := by
  unfold approve_all_pending
  cases specific_channel_id with
  | none => exact runChannels_ledger w CH L
  | some c =>
    show (runChannels w L (if c == 0 then CH else [c])).1 = L
    by_cases h : (c == 0) = true
    · rw [if_pos h]
      exact runChannels_ledger w CH L
    · rw [if_neg h]
      exact runChannels_ledger w [c] L

/-- C6: the membership event tracker records a departure exactly for
transitions from an active status (`member`/`administrator`/`creator`) to a
departed status (`left`/`kicked`) on a monitored channel: such a transition
makes the tracker's result `recordLeft` (so `hasLeft` becomes true); any
other transition, and any event on an unmonitored channel, leaves the
ledger untouched. -/
theorem tracker_records_active_to_departed (CH : List Int) (L : Ledger)
    (chat_id : Int) (old_status new_status : String) (user_id : Int) :
    (chat_id ∈ CH → activeStatus old_status → departedStatus new_status →
      track_chat_members CH L chat_id old_status new_status user_id =
        recordLeft L (toString user_id) chat_id ∧
      hasLeft (track_chat_members CH L chat_id old_status new_status user_id)
        (toString user_id) chat_id = true) ∧
    (¬ (activeStatus old_status ∧ departedStatus new_status) →
      track_chat_members CH L chat_id old_status new_status user_id = L) ∧
    (¬ chat_id ∈ CH →
      track_chat_members CH L chat_id old_status new_status user_id = L) := by
  refine ⟨?_, ?_, ?_⟩
  · intro hmem ha hd
    have hcc : CH.contains chat_id = true := List.elem_iff.mpr hmem
    have hact := (activeStatus_iff old_status).mpr ha
    have hdep := (departedStatus_iff new_status).mpr hd
    have e : track_chat_members CH L chat_id old_status new_status user_id =
        recordLeft L (toString user_id) chat_id := by
      unfold track_chat_members
      rw [hcc, hact, hdep]
      simp
    exact ⟨e, by rw [e]; exact hasLeft_recordLeft L _ _⟩
  · intro hnd
    unfold track_chat_members
    by_cases hcc : (CH.contains chat_id) = true
    · have hb : ((["member", "administrator", "creator"].contains old_status) &&
          (["left", "kicked"].contains new_status)) = false := by
        cases hao : (["member", "administrator", "creator"].contains old_status) with
        | false => simp
        | true =>
          cases hdo : (["left", "kicked"].contains new_status) with
          | false => simp
          | true =>
            exact absurd ⟨(activeStatus_iff _).mp hao, (departedStatus_iff _).mp hdo⟩ hnd
      rw [hcc, hb]
      simp
    · have hcf : CH.contains chat_id = false := by
        cases h : CH.contains chat_id with
        | false => rfl
        | true => exact absurd h hcc
      rw [hcf]
      simp
  · intro hnm
    have hcf : CH.contains chat_id = false := by
      cases h : CH.contains chat_id with
      | false => rfl
      | true => exact absurd (List.elem_iff.mp h) hnm
    unfold track_chat_members
    rw [hcf]
    simp

/-- Witness for C6: on monitored channel 5, `administrator → left` for
user 7 records the departure, while `member → administrator` leaves the
ledger unchanged. -/
theorem tracker_records_active_to_departed_witness :
    ((5 : Int) ∈ [(5 : Int)] ∧ activeStatus "administrator" ∧
      departedStatus "left") ∧
    (track_chat_members [5] [] 5 "administrator" "left" 7 =
        recordLeft [] "7" 5 ∧
     hasLeft (track_chat_members [5] [] 5 "administrator" "left" 7) "7" 5 = true) ∧
    track_chat_members [5] [] 5 "member" "administrator" 7 = [] := by
  refine ⟨⟨by decide, Or.inr (Or.inl rfl), Or.inl rfl⟩, ?_, ?_⟩
  · exact (tracker_records_active_to_departed [5] [] 5 "administrator" "left" 7).1
      (by decide) (Or.inr (Or.inl rfl)) (Or.inl rfl)
  · refine (tracker_records_active_to_departed [5] [] 5 "member" "administrator" 7).2.1 ?_
    rintro ⟨-, hd | hd⟩ <;> simp at hd

/-- C5: a manual approval of user X scoped to a monitored channel C first
clears X's ledger entry for C (removing the channel, deleting the entry
when it becomes empty) and then issues exactly one approve call for (C, X)
— the event trace is `[approveCall C X]`, containing no classifier
consultation, and the operation takes no profile input at all, so the
outcome is independent of what the classifier would return for X. -/
theorem manual_approve_clears_then_approves (CH : List Int)
    (nameOf : Int → String) (L : Ledger) (X C : Int)
    (hmem : C ∈ CH) (hC0 : ¬ C = 0) (hN : entriesNodup L)
    (hLeft : hasLeft L (toString X) C = true) :
    manual_approve CH nameOf L X (some C) =
      (clear L (toString X) C, [Event.approveCall C X], [nameOf C]) ∧
    hasLeft (manual_approve CH nameOf L X (some C)).1 (toString X) C = false := by
  have hb : (C == 0) = false := beq_eq_false_iff_ne.mpr hC0
  have hcc : CH.contains C = true := List.elem_iff.mpr hmem
  have e : manual_approve CH nameOf L X (some C) =
      (clear L (toString X) C, [Event.approveCall C X], [nameOf C]) := by
    unfold manual_approve
    show manualLoop CH nameOf X L (if C == 0 then CH else [C]) = _
    rw [if_neg (by simp [hb])]
    unfold manualLoop
    rw [hcc]
    simp [manualLoop]
  exact ⟨e, by rw [e]; exact hasLeft_clear L _ _ hN⟩

/-- Witness for C5: user 7 who left monitored channel 5 is manually
approved for channel 5: the entry is cleared and one approve call issued. -/
theorem manual_approve_clears_then_approves_witness :
    ((5 : Int) ∈ [(5 : Int)] ∧ entriesNodup [("7", [5])] ∧
      hasLeft [("7", [5])] "7" 5 = true) ∧
    (manual_approve [5] (fun _ => "chA") [("7", [5])] 7 (some 5) =
        (clear [("7", [5])] "7" 5, [Event.approveCall 5 7], ["chA"]) ∧
     hasLeft (manual_approve [5] (fun _ => "chA") [("7", [5])] 7 (some 5)).1
        "7" 5 = false) :=
  ⟨⟨by decide, by unfold entriesNodup; decide, by decide⟩,
   manual_approve_clears_then_approves [5] (fun _ => "chA") [("7", [5])] 7 5
     (by decide) (by decide) (by unfold entriesNodup; decide) (by decide)⟩

/-- C1: in the batch request loop, a request by a user who previously left
the channel is declined and counted as rejected with no classifier
consultation (the request contributes exactly a `declineCall` to the
trace), at any position in the fetch order; the same user, with a profile
the classifier finds legitimate, pending in a channel they never left, is
approved (contributing `classifierCall` then `approveCall`). -/
theorem batch_ledger_short_circuit (now : Int) (L : Ledger) (cA cB : Int)
    (req : JoinRequest) (pre post : List JoinRequest)
    (hA : hasLeft L (toString req.from_user.id) cA = true)
    (hB : hasLeft L (toString req.from_user.id) cB = false)
    (hLeg : (is_suspicious_user now req.from_user).1 = false) :
    (processPending now cA L (pre ++ req :: post)).2.2.1 =
      (processPending now cA L pre).2.2.1 +
        (processPending now cA L post).2.2.1 + 1 ∧
    (processPending now cA L (pre ++ req :: post)).2.2.2 =
      (processPending now cA L pre).2.2.2 ++
        Event.declineCall cA req.from_user.id ::
          (processPending now cA L post).2.2.2 ∧
    (processPending now cB L (pre ++ req :: post)).2.1 =
      (processPending now cB L pre).2.1 +
        (processPending now cB L post).2.1 + 1 ∧
    (processPending now cB L (pre ++ req :: post)).2.2.2 =
      (processPending now cB L pre).2.2.2 ++
        Event.classifierCall req.from_user.id ::
          Event.approveCall cB req.from_user.id ::
            (processPending now cB L post).2.2.2 := by
  have hstepA : processPending now cA L (req :: post) =
      ((processPending now cA L post).1, (processPending now cA L post).2.1,
       (processPending now cA L post).2.2.1 + 1,
       Event.declineCall cA req.from_user.id ::
         (processPending now cA L post).2.2.2) := by
    rw [processPending_cons, if_pos hA]
  have hstepB : processPending now cB L (req :: post) =
      ((processPending now cB L post).1,
       (processPending now cB L post).2.1 + 1,
       (processPending now cB L post).2.2.1,
       Event.classifierCall req.from_user.id ::
         Event.approveCall cB req.from_user.id ::
           (processPending now cB L post).2.2.2) := by
    rw [processPending_cons, if_neg (by simp [hB]), if_pos (by simp [hLeg])]
  refine ⟨?_, ?_, ?_, ?_⟩
  · rw [processPending_append now cA L pre (req :: post), hstepA]
    simp
    omega
  · rw [processPending_append now cA L pre (req :: post), hstepA]
  · rw [processPending_append now cB L pre (req :: post), hstepB]
    simp
    omega
  · rw [processPending_append now cB L pre (req :: post), hstepB]

/-- A profile the classifier finds legitimate, used by concrete witnesses. -/
def aliceProfile : UserProfile := ⟨7, some "alice", none, none, none⟩

/-- Witness for C1: user 7 previously left channel 1 but not channel 2;
their single pending legitimate request is rejected in channel 1 without a
classifier call and approved in channel 2. -/
theorem batch_ledger_short_circuit_witness :
    (hasLeft [("7", [1])] "7" 1 = true ∧ hasLeft [("7", [1])] "7" 2 = false ∧
      (is_suspicious_user 0 aliceProfile).1 = false) ∧
    ((processPending 0 1 [("7", [1])] [⟨aliceProfile⟩]).2.2.1 =
        (processPending 0 1 [("7", [1])] []).2.2.1 +
          (processPending 0 1 [("7", [1])] []).2.2.1 + 1 ∧
     (processPending 0 1 [("7", [1])] [⟨aliceProfile⟩]).2.2.2 =
        (processPending 0 1 [("7", [1])] []).2.2.2 ++
          Event.declineCall 1 7 :: (processPending 0 1 [("7", [1])] []).2.2.2 ∧
     (processPending 0 2 [("7", [1])] [⟨aliceProfile⟩]).2.1 =
        (processPending 0 2 [("7", [1])] []).2.1 +
          (processPending 0 2 [("7", [1])] []).2.1 + 1 ∧
     (processPending 0 2 [("7", [1])] [⟨aliceProfile⟩]).2.2.2 =
        (processPending 0 2 [("7", [1])] []).2.2.2 ++
          Event.classifierCall 7 :: Event.approveCall 2 7 ::
            (processPending 0 2 [("7", [1])] []).2.2.2) :=
  ⟨⟨by decide, by decide, by decide⟩,
   batch_ledger_short_circuit 0 [("7", [1])] 1 2 ⟨aliceProfile⟩ [] []
     (by decide) (by decide) (by decide)⟩

/-- C2: the classifier evaluates its rules in the source order — account
age, handle text, first-name text, last-name text, missing handle — and
returns at the first match, falling through to Legitimate; in particular a
profile that is both too new and has a suspicious handle gets the
account-age verdict, because the age rule is checked first. -/
theorem classifier_rule_order (now : Int) (u : UserProfile) :
    (ruleAccountTooNew now u →
      ∃ ts, u.created_at = some ts ∧
        is_suspicious_user now u =
          (true, "Account too new (" ++ toString (now - ts) ++ " days)")) ∧
    (¬ ruleAccountTooNew now u → ruleSuspiciousText u.username →
      ∃ s, u.username = some s ∧
        is_suspicious_user now u = (true, "Suspicious username: " ++ s)) ∧
    (¬ ruleAccountTooNew now u → ¬ ruleSuspiciousText u.username →
      ruleSuspiciousText u.first_name →
      ∃ s, u.first_name = some s ∧
        is_suspicious_user now u = (true, "Suspicious first name: " ++ s)) ∧
    (¬ ruleAccountTooNew now u → ¬ ruleSuspiciousText u.username →
      ¬ ruleSuspiciousText u.first_name → ruleSuspiciousText u.last_name →
      ∃ s, u.last_name = some s ∧
        is_suspicious_user now u = (true, "Suspicious last name: " ++ s)) ∧
    (¬ ruleAccountTooNew now u → ¬ ruleSuspiciousText u.username →
      ¬ ruleSuspiciousText u.first_name → ¬ ruleSuspiciousText u.last_name →
      ruleNoHandle u → is_suspicious_user now u = (true, "No username")) ∧
    (¬ ruleAccountTooNew now u → ¬ ruleSuspiciousText u.username →
      ¬ ruleSuspiciousText u.first_name → ¬ ruleSuspiciousText u.last_name →
      ¬ ruleNoHandle u →
      is_suspicious_user now u = (false, "User appears legitimate")) ∧
    (ruleAccountTooNew now u → ruleSuspiciousText u.username →
      ∃ ts, u.created_at = some ts ∧
        is_suspicious_user now u =
          (true, "Account too new (" ++ toString (now - ts) ++ " days)")) := by
  refine ⟨?_, ?_, ?_, ?_, ?_, ?_, ?_⟩
  · intro h1
    obtain ⟨ts, hts, hc⟩ := checkAccountAge_of_rule h1
    exact ⟨ts, hts, by unfold is_suspicious_user; rw [hc]⟩
  · intro h1 h2
    have hc1 : checkAccountAge now u = none := (checkAccountAge_none_iff now u).mpr h1
    obtain ⟨s, hs, hc2⟩ := checkField_of_rule "Suspicious username: " h2
    exact ⟨s, hs, by unfold is_suspicious_user; rw [hc1, hc2]⟩
  · intro h1 h2 h3
    have hc1 : checkAccountAge now u = none := (checkAccountAge_none_iff now u).mpr h1
    have hc2 : checkField "Suspicious username: " u.username = none :=
      (checkField_none_iff _ _).mpr h2
    obtain ⟨s, hs, hc3⟩ := checkField_of_rule "Suspicious first name: " h3
    exact ⟨s, hs, by unfold is_suspicious_user; rw [hc1, hc2, hc3]⟩
  · intro h1 h2 h3 h4
    have hc1 : checkAccountAge now u = none := (checkAccountAge_none_iff now u).mpr h1
    have hc2 : checkField "Suspicious username: " u.username = none :=
      (checkField_none_iff _ _).mpr h2
    have hc3 : checkField "Suspicious first name: " u.first_name = none :=
      (checkField_none_iff _ _).mpr h3
    obtain ⟨s, hs, hc4⟩ := checkField_of_rule "Suspicious last name: " h4
    exact ⟨s, hs, by unfold is_suspicious_user; rw [hc1, hc2, hc3, hc4]⟩
  · intro h1 h2 h3 h4 h5
    have hc1 : checkAccountAge now u = none := (checkAccountAge_none_iff now u).mpr h1
    have hc2 : checkField "Suspicious username: " u.username = none :=
      (checkField_none_iff _ _).mpr h2
    have hc3 : checkField "Suspicious first name: " u.first_name = none :=
      (checkField_none_iff _ _).mpr h3
    have hc4 : checkField "Suspicious last name: " u.last_name = none :=
      (checkField_none_iff _ _).mpr h4
    have h5' : truthy u.username = false := h5
    unfold is_suspicious_user
    rw [hc1, hc2, hc3, hc4]
    simp [h5']
  · intro h1 h2 h3 h4 h5
    have hc1 : checkAccountAge now u = none := (checkAccountAge_none_iff now u).mpr h1
    have hc2 : checkField "Suspicious username: " u.username = none :=
      (checkField_none_iff _ _).mpr h2
    have hc3 : checkField "Suspicious first name: " u.first_name = none :=
      (checkField_none_iff _ _).mpr h3
    have hc4 : checkField "Suspicious last name: " u.last_name = none :=
      (checkField_none_iff _ _).mpr h4
    have h5' : truthy u.username = true := by
      cases h : truthy u.username with
      | true => rfl
      | false => exact absurd h h5
    unfold is_suspicious_user
    rw [hc1, hc2, hc3, hc4]
    simp [h5']
  · intro h1 h2
    obtain ⟨ts, hts, hc⟩ := checkAccountAge_of_rule h1
    exact ⟨ts, hts, by unfold is_suspicious_user; rw [hc]⟩

/-- A profile that is both too new (5 days at `now = 100`) and has a handle
containing the suspicious substring "bot". -/
def botmanProfile : UserProfile := ⟨8, some "botman", none, none, some 95⟩

/-- Witness for C2: for `botmanProfile`, both the age rule and the handle
rule apply, and the verdict is the account-age one. -/
theorem classifier_rule_order_witness :
    (ruleAccountTooNew 100 botmanProfile ∧
      ruleSuspiciousText botmanProfile.username) ∧
    (∃ ts, botmanProfile.created_at = some ts ∧
      is_suspicious_user 100 botmanProfile =
        (true, "Account too new (" ++ toString ((100 : Int) - ts) ++ " days)")) :=
  ⟨⟨⟨95, rfl, by decide⟩, ⟨"botman", rfl, by decide, by decide⟩⟩,
   (classifier_rule_order 100 botmanProfile).2.2.2.2.2.2
     ⟨95, rfl, by decide⟩ ⟨"botman", rfl, by decide, by decide⟩⟩

/-- C3: in a batch run over three channels where only the second channel's
fetch fails, the run report holds a success tally line for channels 1 and
3 and an error line for channel 2, the totals (and the issued calls) come
only from channels 1 and 3, and the ledger is returned unchanged —
processing was not aborted after the failure. -/
theorem batch_per_channel_error_isolation (w : World) (L : Ledger)
    (c1 c2 c3 : Int) (l1 l3 : List JoinRequest) (e : String)
    (hc1 : ¬ c1 = 0) (hc2 : ¬ c2 = 0) (hc3 : ¬ c3 = 0)
    (hf1 : w.fetch c1 = Except.ok (some l1))
    (hf2 : w.fetch c2 = Except.error e)
    (hf3 : w.fetch c3 = Except.ok (some l3)) :
    approve_all_pending w [c1, c2, c3] L none =
      (L,
       (processPending w.now c1 L l1).2.1 + (processPending w.now c3 L l3).2.1,
       (processPending w.now c1 L l1).2.2.1 + (processPending w.now c3 L l3).2.2.1,
       [tallyLine (w.chanName c1) (processPending w.now c1 L l1).2.1
          (processPending w.now c1 L l1).2.2.1,
        errorLine (w.chanName c2) e,
        tallyLine (w.chanName c3) (processPending w.now c3 L l3).2.1
          (processPending w.now c3 L l3).2.2.1],
       (processPending w.now c1 L l1).2.2.2 ++
         (processPending w.now c3 L l3).2.2.2) := by
  show runChannels w L [c1, c2, c3] = _
  rw [runChannels_cons_ok L [c2, c3] hc1 hf1,
      runChannels_cons_error L [c3] hc2 hf2,
      runChannels_cons_ok L [] hc3 hf3]
  simp [runChannels, pendingOf, Prod.mk.injEq]

/-- A three-channel world whose second channel's fetch fails. -/
def errWorld : World :=
  ⟨fun c => if c == 2 then Except.error "boom" else Except.ok (some []),
   fun c => "ch" ++ toString c, 100⟩

/-- Witness for C3 in `errWorld` with empty pending lists on channels 1
and 3. -/
theorem batch_per_channel_error_isolation_witness :
    (errWorld.fetch 1 = Except.ok (some []) ∧
     errWorld.fetch 2 = Except.error "boom" ∧
     errWorld.fetch 3 = Except.ok (some [])) ∧
    approve_all_pending errWorld [1, 2, 3] [] none =
      ([],
       (processPending errWorld.now 1 [] []).2.1 +
         (processPending errWorld.now 3 [] []).2.1,
       (processPending errWorld.now 1 [] []).2.2.1 +
         (processPending errWorld.now 3 [] []).2.2.1,
       [tallyLine (errWorld.chanName 1) (processPending errWorld.now 1 [] []).2.1
          (processPending errWorld.now 1 [] []).2.2.1,
        errorLine (errWorld.chanName 2) "boom",
        tallyLine (errWorld.chanName 3) (processPending errWorld.now 3 [] []).2.1
          (processPending errWorld.now 3 [] []).2.2.1],
       (processPending errWorld.now 1 [] []).2.2.2 ++
         (processPending errWorld.now 3 [] []).2.2.2) :=
  ⟨⟨rfl, rfl, rfl⟩,
   batch_per_channel_error_isolation errWorld [] 1 2 3 [] [] "boom"
     (by decide) (by decide) (by decide) rfl rfl rfl⟩

/-- A world in which every fetch succeeds with the empty list. -/
def emptyFetchWorld : World :=
  ⟨fun _ => Except.ok (some []), fun _ => "alpha", 100⟩

/-- Recognizer for the error status lines the channel loop produces: they
begin with the fixed prefix of `errorLine` (bot.py line 228). -/
def isErrorLine (s : String) : Bool :=
  listStarts "Error processing ".data s.data

/-- C4 counterexample: a channel whose fetch returns an empty result is
recorded with the normal success tally line "alpha: Approved 0, Rejected
0", which is not an error status line — unlike a failed fetch, whose line
begins with "Error processing". -/
theorem empty_fetch_error_line_counterexample :
    (approve_all_pending emptyFetchWorld [5] [] none).2.2.2.1 =
      ["alpha: Approved 0, Rejected 0"] ∧
    isErrorLine "alpha: Approved 0, Rejected 0" = false ∧
    isErrorLine (errorLine "alpha" "boom") = true :=
  ⟨rfl, rfl, rfl⟩

/-- C4 (amended): a channel whose fetch returns an empty result (a falsy
`None` or the empty list) gets a normal success tally line "Approved 0,
Rejected 0" recorded in the run report — not the error treatment of a
failed fetch — and processing continues to the next channel with totals
unchanged. -/
theorem empty_fetch_success_tally (w : World) (L : Ledger) (cid : Int)
    (rest : List Int) (h0 : ¬ cid = 0)
    (hf : w.fetch cid = Except.ok none ∨ w.fetch cid = Except.ok (some [])) :
    runChannels w L (cid :: rest) =
      ((runChannels w L rest).1, (runChannels w L rest).2.1,
       (runChannels w L rest).2.2.1,
       tallyLine (w.chanName cid) 0 0 :: (runChannels w L rest).2.2.2.1,
       (runChannels w L rest).2.2.2.2) ∧
    tallyLine (w.chanName cid) 0 0 =
      w.chanName cid ++ ": Approved 0, Rejected 0" := by
  constructor
  · rcases hf with hf | hf
    · rw [runChannels_cons_ok L rest h0 hf]
      simp [pendingOf, processPending]
    · rw [runChannels_cons_ok L rest h0 hf]
      simp [pendingOf, processPending]
  · simp only [tallyLine, String.append_assoc]
    rfl

/-- Witness for C4 (amended) in `emptyFetchWorld` on channel 5 with no
further channels. -/
theorem empty_fetch_success_tally_witness :
    (emptyFetchWorld.fetch 5 = Except.ok none ∨
      emptyFetchWorld.fetch 5 = Except.ok (some [])) ∧
    (runChannels emptyFetchWorld [] [5] =
      ((runChannels emptyFetchWorld [] []).1,
       (runChannels emptyFetchWorld [] []).2.1,
       (runChannels emptyFetchWorld [] []).2.2.1,
       tallyLine (emptyFetchWorld.chanName 5) 0 0 ::
         (runChannels emptyFetchWorld [] []).2.2.2.1,
       (runChannels emptyFetchWorld [] []).2.2.2.2) ∧
     tallyLine (emptyFetchWorld.chanName 5) 0 0 =
       emptyFetchWorld.chanName 5 ++ ": Approved 0, Rejected 0") :=
  ⟨Or.inr rfl,
   empty_fetch_success_tally emptyFetchWorld [] 5 [] (by decide) (Or.inr rfl)⟩

end ApprovalBot
